import Mathlib

set_option maxRecDepth 100000

/-!
Shallow embedding of the thesis-supervision management server
(auth handlers, thesis/student/lecturer/guidance-session repository
operations and the relational schema), together with theorems checking
the specification's claims against it.

Strings are modelled as lists of characters (`Str`), byte buffers as
lists of naturals below 256, timestamps as naturals (epoch milliseconds),
and the database as explicit lists of rows with per-table id counters.
Fallible operations return `Except JsError α × DB`: the second component
is the database state after the call, including states left behind by a
thrown error.
-/

namespace Skripsi

/-- JavaScript strings, modelled as lists of characters. -/
abbrev Str := List Char

/-- Errors thrown by the handlers: `Error(msg)` objects, the `TypeError`
thrown by `Buffer.from(undefined, 'hex')`, the `RangeError` thrown by
`timingSafeEqual` on buffers of different lengths, and storage-level
foreign-key / unique-constraint rejections. -/
inductive JsError where
  | error (msg : String)
  | typeError
  | rangeError
  | fkViolation
  | uniqueViolation
deriving DecidableEq, Repr

/-- Hexadecimal digit character for `n < 16` (lower case, as produced by
`Buffer.prototype.toString('hex')`). -/
def hexDigit (n : Nat) : Char :=
  Char.ofNat (if n < 10 then 48 + n else 87 + n)

/-- `Buffer.prototype.toString('hex')`: two hex characters per byte. -/
def toHex : List Nat → List Char
  | [] => []
  | b :: rest => hexDigit (b / 16) :: hexDigit (b % 16) :: toHex rest

/-- Value of a hex digit character, `none` when the character is not a
hex digit. -/
def hexVal (c : Char) : Option Nat :=
  if 48 ≤ c.toNat ∧ c.toNat ≤ 57 then some (c.toNat - 48)
  else if 97 ≤ c.toNat ∧ c.toNat ≤ 102 then some (c.toNat - 87)
  else if 65 ≤ c.toNat ∧ c.toNat ≤ 70 then some (c.toNat - 55)
  else none

/-- `Buffer.from(s, 'hex')`: decode hex pairs, stopping at the first
invalid pair (Node truncates there) and dropping a dangling character. -/
def hexDecode : List Char → List Nat
  | c1 :: c2 :: rest =>
    match hexVal c1, hexVal c2 with
    | some h, some l => (16 * h + l) :: hexDecode rest
    | _, _ => []
  | _ => []

/-- `String.prototype.split(sep)` for a one-character separator: the list
of segments between occurrences of `sep` (always nonempty). -/
def jsSplitChar (sep : Char) : List Char → List (List Char)
  | [] => [[]]
  | c :: rest =>
    if c = sep then [] :: jsSplitChar sep rest
    else
      match jsSplitChar sep rest with
      | [] => [[c]]
      | h :: t => (c :: h) :: t

/-- `hashPassword` from the auth handler: a fresh 16-byte salt (passed in
here, drawn from `randomBytes(16)` in the source) is hex-encoded, the key
is derived by `scryptSync(password, salt, 64)` (the derivation function is
a parameter), and the credential is `salt ++ ":" ++ hash` in hex. -/
def hashPassword (scrypt : Str → Str → List Nat) (saltBytes : List Nat)
    (password : Str) : Str :=
  let salt := toHex saltBytes
  salt ++ ':' :: toHex (scrypt password salt)

/-- `verifyPassword` from the auth handler: split the credential on `:`,
hex-decode the digest part, re-derive the key from the embedded salt, and
compare with `timingSafeEqual`. When the credential has no separator the
digest destructures to `undefined` and `Buffer.from` throws a `TypeError`;
when the decoded digest's length differs from the derived key's length,
`timingSafeEqual` throws a `RangeError`. -/
def verifyPassword (scrypt : Str → Str → List Nat) (password hashed : Str) :
    Except JsError Bool :=
  let parts := jsSplitChar ':' hashed
  match parts[1]? with
  | none => .error .typeError
  | some hashHex =>
    let salt := parts.headD []
    let hashBuffer := hexDecode hashHex
    let verifyBuffer := scrypt password salt
    if hashBuffer.length = verifyBuffer.length then .ok (hashBuffer == verifyBuffer)
    else .error .rangeError

theorem hexVal_hexDigit : ∀ n < 16, hexVal (hexDigit n) = some n := by decide

theorem hexDigit_ne_colon : ∀ n < 16, hexDigit n ≠ ':' := by decide

theorem hexDecode_toHex : ∀ bs : List Nat, (∀ b ∈ bs, b < 256) →
    hexDecode (toHex bs) = bs
  | [], _ => rfl
  | b :: rest, h => by
    have hb : b < 256 := h b (by simp)
    have h1 : b / 16 < 16 := by omega
    have h2 : b % 16 < 16 := by omega
    have e1 := hexVal_hexDigit (b / 16) h1
    have e2 := hexVal_hexDigit (b % 16) h2
    have ih := hexDecode_toHex rest (fun x hx => h x (by simp [hx]))
    have hb16 : 16 * (b / 16) + b % 16 = b := by omega
    simp only [toHex, hexDecode, e1, e2, ih, hb16]

theorem toHex_ne_colon : ∀ bs : List Nat, (∀ b ∈ bs, b < 256) →
    ∀ c ∈ toHex bs, c ≠ ':'
  | [], _ => by intro c hc; simp [toHex] at hc
  | b :: rest, h => by
    intro c hc
    have hb : b < 256 := h b (by simp)
    simp only [toHex, List.mem_cons] at hc
    rcases hc with rfl | hc
    · exact hexDigit_ne_colon (b / 16) (by omega)
    rcases hc with rfl | hc
    · exact hexDigit_ne_colon (b % 16) (by omega)
    · exact toHex_ne_colon rest (fun x hx => h x (by simp [hx])) c hc

theorem toHex_length : ∀ bs : List Nat, (toHex bs).length = 2 * bs.length
  | [] => rfl
  | _ :: rest => by simp [toHex, toHex_length rest]; omega

theorem toHex_injOn {a b : List Nat} (ha : ∀ x ∈ a, x < 256)
    (hb : ∀ x ∈ b, x < 256) (h : toHex a = toHex b) : a = b := by
  have := hexDecode_toHex a ha
  rw [h, hexDecode_toHex b hb] at this
  exact this.symm

theorem jsSplitChar_no_sep (sep : Char) :
    ∀ s : List Char, (∀ c ∈ s, c ≠ sep) → jsSplitChar sep s = [s]
  | [], _ => rfl
  | c :: rest, h => by
    have hc : c ≠ sep := h c (by simp)
    have ih := jsSplitChar_no_sep sep rest (fun x hx => h x (by simp [hx]))
    simp [jsSplitChar, hc, ih]

theorem jsSplitChar_cons_ne (sep c : Char) (s : List Char) (hc : c ≠ sep) :
    jsSplitChar sep (c :: s) =
      match jsSplitChar sep s with
      | [] => [[c]]
      | h :: t => (c :: h) :: t := by
  simp [jsSplitChar, hc]

theorem jsSplitChar_append (sep : Char) (a b : List Char)
    (ha : ∀ c ∈ a, c ≠ sep) :
    jsSplitChar sep (a ++ sep :: b) = a :: jsSplitChar sep b := by
  induction a with
  | nil => simp [jsSplitChar]
  | cons c rest ih =>
    have hc : c ≠ sep := ha c (by simp)
    have ih' := ih (fun x hx => ha x (by simp [hx]))
    rw [List.cons_append, jsSplitChar_cons_ne sep c _ hc, ih']

/-- A concrete stand-in for `scryptSync(·, ·, 64)`, used only to witness
theorems that hold for every derivation function: it returns 64 zero
bytes. -/
def cScrypt : Str → Str → List Nat := fun _ _ => List.replicate 64 0

/-- C1: for every password `p` and derivation function, verifying `p`
against `hashPassword` of `p` succeeds with `true`, and hashing the same
password with two different salts (as `randomBytes(16)` supplies on each
call) produces two different credential strings. -/
theorem verify_hash_roundtrip_and_fresh_salt
    (scrypt : Str → Str → List Nat) (p : Str) (s1 s2 : List Nat)
    (hs1 : ∀ b ∈ s1, b < 256) (hs2 : ∀ b ∈ s2, b < 256)
    (hlen : s1.length = s2.length)
    (hout : ∀ pw salt b, b ∈ scrypt pw salt → b < 256) :
    verifyPassword scrypt p (hashPassword scrypt s1 p) = .ok true ∧
    (s1 ≠ s2 → hashPassword scrypt s1 p ≠ hashPassword scrypt s2 p) := by
  constructor
  · unfold hashPassword verifyPassword
    have hsalt : ∀ c ∈ toHex s1, c ≠ ':' := toHex_ne_colon s1 hs1
    have hhash : ∀ c ∈ toHex (scrypt p (toHex s1)), c ≠ ':' :=
      toHex_ne_colon _ (fun b hb => hout p (toHex s1) b hb)
    rw [jsSplitChar_append ':' _ _ hsalt, jsSplitChar_no_sep ':' _ hhash]
    simp [hexDecode_toHex _ (fun b hb => hout p (toHex s1) b hb)]
  · intro hne heq
    unfold hashPassword at heq
    have hlen2 : (toHex s1).length = (toHex s2).length := by
      rw [toHex_length, toHex_length, hlen]
    exact hne (toHex_injOn hs1 hs2 (List.append_inj heq hlen2).1)

theorem verify_hash_roundtrip_and_fresh_salt_witness :
    verifyPassword cScrypt ['p'] (hashPassword cScrypt (List.replicate 16 0) ['p']) = .ok true ∧
    hashPassword cScrypt (List.replicate 16 0) ['p'] ≠
      hashPassword cScrypt (List.replicate 15 0 ++ [1]) ['p'] := by
  have h := verify_hash_roundtrip_and_fresh_salt cScrypt ['p']
    (List.replicate 16 0) (List.replicate 15 0 ++ [1])
    (by decide) (by decide) (by decide)
    (fun _ _ b hb => by simp [cScrypt] at hb; omega)
  exact ⟨h.1, h.2 (by decide)⟩

/-- C2 counterexample: at the concrete malformed credential `"ab"` (no
separator), `verifyPassword` throws a `TypeError` instead of returning
`false`, refuting the claim that malformed credential strings fail
verification without throwing. -/
theorem verifyPassword_malformed_cex :
    verifyPassword cScrypt ['p'] ['a', 'b'] = .error .typeError ∧
    verifyPassword cScrypt ['p'] ['a', 'b'] ≠ .ok false := by
  have h1 : verifyPassword cScrypt ['p'] ['a', 'b'] = .error .typeError := rfl
  exact ⟨h1, fun h => by rw [h1] at h; exact Except.noConfusion h⟩

/-- C2 (amended): for malformed credential strings `verifyPassword`
throws rather than returning `false`: with no `:` separator the digest
destructures to `undefined` and `Buffer.from` throws a `TypeError`, and
when the decoded digest's length differs from the derived key's length
`timingSafeEqual` throws a `RangeError`; the exception propagates to the
caller. -/
theorem verifyPassword_malformed_throws
    (scrypt : Str → Str → List Nat) (p : Str) :
    (∀ c : Str, (∀ ch ∈ c, ch ≠ ':') →
      verifyPassword scrypt p c = .error .typeError) ∧
    (∀ salt digest : Str, (∀ ch ∈ salt, ch ≠ ':') → (∀ ch ∈ digest, ch ≠ ':') →
      (hexDecode digest).length ≠ (scrypt p salt).length →
      verifyPassword scrypt p (salt ++ ':' :: digest) = .error .rangeError) := by
  constructor
  · intro c hc
    unfold verifyPassword
    rw [jsSplitChar_no_sep ':' c hc]
    rfl
  · intro salt digest h1 h2 hlen
    unfold verifyPassword
    rw [jsSplitChar_append ':' _ _ h1, jsSplitChar_no_sep ':' _ h2]
    simp [hlen]

theorem verifyPassword_malformed_throws_witness :
    verifyPassword cScrypt ['p'] ['a', 'b'] = .error .typeError ∧
    verifyPassword cScrypt ['p'] (['a'] ++ ':' :: ['b']) = .error .rangeError := by
  have h := verifyPassword_malformed_throws cScrypt ['p']
  exact ⟨h.1 ['a', 'b'] (by decide), h.2 ['a'] ['b'] (by decide) (by decide) (by decide)⟩

/-- Character of the base64url alphabet at index `n < 64`; indices `≥ 64`
never arise from 6-bit groups. -/
def b64Char (n : Nat) : Char :=
  if n < 26 then Char.ofNat (65 + n)
  else if n < 52 then Char.ofNat (97 + (n - 26))
  else if n < 62 then Char.ofNat (48 + (n - 52))
  else if n = 62 then '-'
  else '_'

/-- Index of a base64url alphabet character. -/
def b64Val (c : Char) : Nat :=
  if 65 ≤ c.toNat ∧ c.toNat ≤ 90 then c.toNat - 65
  else if 97 ≤ c.toNat ∧ c.toNat ≤ 122 then c.toNat - 97 + 26
  else if 48 ≤ c.toNat ∧ c.toNat ≤ 57 then c.toNat - 48 + 52
  else if c = '-' then 62
  else 63

/-- `Buffer.prototype.toString('base64url')`: unpadded base64 with the
URL-safe alphabet, 4 characters per 3-byte group, 3 (resp. 2) characters
for a trailing 2-byte (resp. 1-byte) group. -/
def base64urlEncode : List Nat → List Char
  | b1 :: b2 :: b3 :: rest =>
    b64Char (b1 / 4) :: b64Char (b1 % 4 * 16 + b2 / 16) ::
      b64Char (b2 % 16 * 4 + b3 / 64) :: b64Char (b3 % 64) :: base64urlEncode rest
  | [b1, b2] => [b64Char (b1 / 4), b64Char (b1 % 4 * 16 + b2 / 16), b64Char (b2 % 16 * 4)]
  | [b1] => [b64Char (b1 / 4), b64Char (b1 % 4 * 16)]
  | [] => []

/-- Inverse of `base64urlEncode`, used to prove it injective. -/
def base64urlDecode : List Char → List Nat
  | c1 :: c2 :: c3 :: c4 :: rest =>
    (b64Val c1 * 4 + b64Val c2 / 16) :: (b64Val c2 % 16 * 16 + b64Val c3 / 4) ::
      (b64Val c3 % 4 * 64 + b64Val c4) :: base64urlDecode rest
  | [c1, c2, c3] => [b64Val c1 * 4 + b64Val c2 / 16, b64Val c2 % 16 * 16 + b64Val c3 / 4]
  | [c1, c2] => [b64Val c1 * 4 + b64Val c2 / 16]
  | _ => []

theorem b64Val_b64Char : ∀ n < 64, b64Val (b64Char n) = n := by decide

theorem base64url_roundtrip : ∀ bs : List Nat, (∀ b ∈ bs, b < 256) →
    base64urlDecode (base64urlEncode bs) = bs
  | [], _ => rfl
  | [b1], h => by
    have hb1 : b1 < 256 := h b1 (by simp)
    have e1 := b64Val_b64Char (b1 / 4) (by omega)
    have e2 := b64Val_b64Char (b1 % 4 * 16) (by omega)
    simp only [base64urlEncode, base64urlDecode, e1, e2, List.cons.injEq, and_true]
    omega
  | [b1, b2], h => by
    have hb1 : b1 < 256 := h b1 (by simp)
    have hb2 : b2 < 256 := h b2 (by simp)
    have e1 := b64Val_b64Char (b1 / 4) (by omega)
    have e2 := b64Val_b64Char (b1 % 4 * 16 + b2 / 16) (by omega)
    have e3 := b64Val_b64Char (b2 % 16 * 4) (by omega)
    simp only [base64urlEncode, base64urlDecode, e1, e2, e3, List.cons.injEq, and_true]
    constructor <;> omega
  | b1 :: b2 :: b3 :: rest, h => by
    have hb1 : b1 < 256 := h b1 (by simp)
    have hb2 : b2 < 256 := h b2 (by simp)
    have hb3 : b3 < 256 := h b3 (by simp)
    have e1 := b64Val_b64Char (b1 / 4) (by omega)
    have e2 := b64Val_b64Char (b1 % 4 * 16 + b2 / 16) (by omega)
    have e3 := b64Val_b64Char (b2 % 16 * 4 + b3 / 64) (by omega)
    have e4 := b64Val_b64Char (b3 % 64) (by omega)
    have ih := base64url_roundtrip rest (fun x hx => h x (by simp [hx]))
    simp only [base64urlEncode, base64urlDecode, e1, e2, e3, e4, ih, List.cons.injEq, and_true]
    refine ⟨by omega, by omega, by omega⟩

theorem base64urlEncode_injOn {a b : List Nat} (ha : ∀ x ∈ a, x < 256)
    (hb : ∀ x ∈ b, x < 256) (h : base64urlEncode a = base64urlEncode b) : a = b := by
  have := base64url_roundtrip a ha
  rw [h, base64url_roundtrip b hb] at this
  exact this.symm

theorem b64Char_lt_ne_dot : ∀ n < 64, b64Char n ≠ '.' := by decide

theorem b64Char_ne_dot (n : Nat) : b64Char n ≠ '.' := by
  by_cases h : n < 64
  · exact b64Char_lt_ne_dot n h
  · have h26 : ¬ n < 26 := by omega
    have h52 : ¬ n < 52 := by omega
    have h62 : ¬ n < 62 := by omega
    have he : ¬ n = 62 := by omega
    simp [b64Char, h26, h52, h62, he]

theorem base64urlEncode_ne_dot : ∀ (bs : List Nat), ∀ c ∈ base64urlEncode bs, c ≠ '.'
  | [] => by intro c hc; simp [base64urlEncode] at hc
  | [b1] => by
    intro c hc
    simp only [base64urlEncode, List.mem_cons, List.not_mem_nil, or_false] at hc
    rcases hc with rfl | rfl <;> exact b64Char_ne_dot _
  | [b1, b2] => by
    intro c hc
    simp only [base64urlEncode, List.mem_cons, List.not_mem_nil, or_false] at hc
    rcases hc with rfl | rfl | rfl <;> exact b64Char_ne_dot _
  | b1 :: b2 :: b3 :: rest => by
    intro c hc
    simp only [base64urlEncode, List.mem_cons] at hc
    rcases hc with rfl | rfl | rfl | rfl | hc
    · exact b64Char_ne_dot _
    · exact b64Char_ne_dot _
    · exact b64Char_ne_dot _
    · exact b64Char_ne_dot _
    · exact base64urlEncode_ne_dot rest c hc

/-- Splitting at a separator character is unambiguous when neither prefix
contains the separator. -/
theorem append_sep_inj {sep : Char} : ∀ (a b r1 r2 : List Char),
    (∀ c ∈ a, c ≠ sep) → (∀ c ∈ b, c ≠ sep) →
    a ++ sep :: r1 = b ++ sep :: r2 → a = b ∧ r1 = r2
  | [], [], r1, r2, _, _, h => by simpa using h
  | [], c :: b, r1, r2, _, hb, h => by
    simp only [List.nil_append, List.cons_append, List.cons.injEq] at h
    exact absurd h.1.symm (hb c (by simp))
  | c :: a, [], r1, r2, ha, _, h => by
    simp only [List.nil_append, List.cons_append, List.cons.injEq] at h
    exact absurd h.1 (ha c (by simp))
  | c :: a, d :: b, r1, r2, ha, hb, h => by
    simp only [List.cons_append, List.cons.injEq] at h
    obtain ⟨rfl, h2⟩ := h
    have := append_sep_inj a b r1 r2 (fun x hx => ha x (by simp [hx]))
      (fun x hx => hb x (by simp [hx])) h2
    exact ⟨by rw [this.1], this.2⟩

/-- Decimal digit character for `d < 10`. -/
def digitChar (d : Nat) : Char := Char.ofNat (48 + d)

/-- Decimal representation of a natural number, fuel-indexed so that it
reduces structurally. -/
def natToDecimalAux : Nat → Nat → List Char
  | 0, _ => []
  | fuel + 1, n =>
    if n < 10 then [digitChar n]
    else natToDecimalAux fuel (n / 10) ++ [digitChar (n % 10)]

/-- Decimal representation of a natural number, as printed by
`JSON.stringify` for integral numbers. -/
def natToDecimal (n : Nat) : List Char := natToDecimalAux (n + 1) n

def decimalStep (a : Nat) (c : Char) : Nat := 10 * a + (c.toNat - 48)

/-- Value of a decimal digit string, used to prove `natToDecimal`
injective. -/
def decimalVal (s : List Char) : Nat := s.foldl decimalStep 0

theorem digitChar_toNat : ∀ d < 10, (digitChar d).toNat = 48 + d := by decide

theorem digitChar_bounds : ∀ d < 10, 48 ≤ (digitChar d).toNat ∧ (digitChar d).toNat ≤ 57 := by
  decide

theorem natToDecimalAux_foldl : ∀ (fuel n : Nat), n < fuel → ∀ a : Nat,
    (natToDecimalAux fuel n).foldl decimalStep a =
      a * 10 ^ (natToDecimalAux fuel n).length + n
  | 0, n, h, _ => absurd h (by omega)
  | fuel + 1, n, h, a => by
    by_cases h10 : n < 10
    · have hd := digitChar_toNat n h10
      simp only [natToDecimalAux, if_pos h10, List.foldl_cons, List.foldl_nil,
        List.length_singleton, decimalStep, hd, pow_one]
      omega
    · have hfuel : n / 10 < fuel := by
        have : n / 10 < n := Nat.div_lt_self (by omega) (by omega)
        omega
      have ih := natToDecimalAux_foldl fuel (n / 10) hfuel a
      have hd := digitChar_toNat (n % 10) (by omega)
      simp only [natToDecimalAux, if_neg h10, List.foldl_append, List.foldl_cons,
        List.foldl_nil, ih, List.length_append, List.length_singleton, decimalStep, hd]
      rw [pow_succ, ← mul_assoc]
      generalize a * 10 ^ (natToDecimalAux fuel (n / 10)).length = M
      omega

theorem decimalVal_natToDecimal (n : Nat) : decimalVal (natToDecimal n) = n := by
  have := natToDecimalAux_foldl (n + 1) n (by omega) 0
  simpa [decimalVal, natToDecimal] using this

theorem natToDecimal_inj {m n : Nat} (h : natToDecimal m = natToDecimal n) : m = n := by
  have := decimalVal_natToDecimal m
  rw [h, decimalVal_natToDecimal n] at this
  exact this.symm

theorem natToDecimalAux_digits : ∀ (fuel n : Nat), ∀ c ∈ natToDecimalAux fuel n,
    48 ≤ c.toNat ∧ c.toNat ≤ 57
  | 0, _ => by intro c hc; simp [natToDecimalAux] at hc
  | fuel + 1, n => by
    intro c hc
    by_cases h10 : n < 10
    · simp only [natToDecimalAux, if_pos h10, List.mem_singleton] at hc
      exact hc ▸ digitChar_bounds n h10
    · simp only [natToDecimalAux, if_neg h10, List.mem_append, List.mem_singleton] at hc
      rcases hc with hc | rfl
      · exact natToDecimalAux_digits fuel (n / 10) c hc
      · exact digitChar_bounds (n % 10) (by omega)

theorem natToDecimal_digits (n : Nat) : ∀ c ∈ natToDecimal n,
    48 ≤ c.toNat ∧ c.toNat ≤ 57 :=
  natToDecimalAux_digits (n + 1) n

/-- `Buffer.from(s)` for an ASCII string: the code points of its
characters. -/
def strBytes (s : Str) : List Nat := s.map Char.toNat

/-- `JSON.stringify({ alg: 'HS256', typ: 'JWT' })`, the fixed JWT
header. -/
def headerStr : Str := "\x7b\"alg\":\"HS256\",\"typ\":\"JWT\"\x7d".toList

/-- `JSON.stringify` of the token payload object
`\x7b userId, exp, iat, jti \x7d`, keys in insertion order. -/
def payloadStr (userId exp iat : Nat) (jtiHex : Str) : Str :=
  "\x7b\"userId\":".toList ++ (natToDecimal userId ++
    (",\"exp\":".toList ++ (natToDecimal exp ++
      (",\"iat\":".toList ++ (natToDecimal iat ++
        (",\"jti\":\"".toList ++ (jtiHex ++ "\"\x7d".toList)))))))

/-- `generateToken` from the auth handler: header and payload are
base64url-encoded and joined with the HMAC-SHA256 signature (abstracted
as `sig`, the server-secret-keyed MAC) by dots. `now` is `Date.now()` in
milliseconds (`iat`), the expiry is 24 hours from now in seconds, and
`jti` is the fresh 8-byte output of `randomBytes(8)`. -/
def generateToken (sig : Str → Str) (now : Nat) (jti : List Nat) (userId : Nat) : Str :=
  let payload := payloadStr userId (now / 1000 + 24 * 60 * 60) now (toHex jti)
  let encodedHeader := base64urlEncode (strBytes headerStr)
  let encodedPayload := base64urlEncode (strBytes payload)
  let signature := sig (encodedHeader ++ '.' :: encodedPayload)
  encodedHeader ++ '.' :: (encodedPayload ++ '.' :: signature)

theorem char_toNat_injective : Function.Injective Char.toNat := by
  intro c d h
  exact Char.eq_of_val_eq (UInt32.toNat.inj h)

theorem strBytes_inj {a b : Str} (h : strBytes a = strBytes b) : a = b :=
  List.map_injective_iff.mpr char_toNat_injective h

theorem hexDigit_toNat_lt : ∀ n < 16, (hexDigit n).toNat < 256 := by decide

theorem toHex_toNat_lt (bs : List Nat) (hb : ∀ b ∈ bs, b < 256) :
    ∀ c ∈ toHex bs, c.toNat < 256 := by
  induction bs with
  | nil => intro c hc; simp [toHex] at hc
  | cons b rest ih =>
    intro c hc
    have hblt : b < 256 := hb b (by simp)
    simp only [toHex, List.mem_cons] at hc
    rcases hc with rfl | rfl | hc
    · exact hexDigit_toNat_lt (b / 16) (by omega)
    · exact hexDigit_toNat_lt (b % 16) (by omega)
    · exact ih (fun x hx => hb x (by simp [hx])) c hc

theorem payloadStr_toNat_lt (userId exp iat : Nat) (jtiHex : Str)
    (hj : ∀ c ∈ jtiHex, c.toNat < 256) :
    ∀ c ∈ payloadStr userId exp iat jtiHex, c.toNat < 256 := by
  intro c hc
  simp only [payloadStr, List.mem_append] at hc
  rcases hc with hc | hc | hc | hc | hc | hc | hc | hc | hc
  · revert hc; revert c; decide
  · have := natToDecimal_digits userId c hc; omega
  · revert hc; revert c; decide
  · have := natToDecimal_digits exp c hc; omega
  · revert hc; revert c; decide
  · have := natToDecimal_digits iat c hc; omega
  · revert hc; revert c; decide
  · exact hj c hc
  · revert hc; revert c; decide

/-- Peel one decimal field followed by a comma-led fixed tail off a JSON
string equality. -/
theorem peel_decimal {n1 n2 : Nat} {t1 t2 : List Char}
    (h : natToDecimal n1 ++ ',' :: t1 = natToDecimal n2 ++ ',' :: t2) :
    n1 = n2 ∧ t1 = t2 := by
  have hd : ∀ (m : Nat), ∀ c ∈ natToDecimal m, c ≠ ',' := by
    intro m c hc he
    have := natToDecimal_digits m c hc
    rw [he] at this
    exact absurd this (by decide)
  have := append_sep_inj _ _ _ _ (hd n1) (hd n2) h
  exact ⟨natToDecimal_inj this.1, this.2⟩

theorem payloadStr_inj {u1 u2 e1 e2 i1 i2 : Nat} {j1 j2 : Str}
    (hlen : j1.length = j2.length)
    (h : payloadStr u1 e1 i1 j1 = payloadStr u2 e2 i2 j2) :
    u1 = u2 ∧ e1 = e2 ∧ i1 = i2 ∧ j1 = j2 := by
  unfold payloadStr at h
  have h1 := List.append_cancel_left h
  rw [show (",\"exp\":".toList : List Char) = ',' :: "\"exp\":".toList from rfl] at h1
  simp only [List.cons_append] at h1
  obtain ⟨hu, h2⟩ := peel_decimal h1
  have h3 := List.append_cancel_left h2
  rw [show (",\"iat\":".toList : List Char) = ',' :: "\"iat\":".toList from rfl] at h3
  simp only [List.cons_append] at h3
  obtain ⟨he, h4⟩ := peel_decimal h3
  have h5 := List.append_cancel_left h4
  rw [show (",\"jti\":\"".toList : List Char) = ',' :: "\"jti\":\"".toList from rfl] at h5
  simp only [List.cons_append] at h5
  obtain ⟨hi, h6⟩ := peel_decimal h5
  have h7 := List.append_cancel_left h6
  exact ⟨hu, he, hi, (List.append_inj h7 hlen).1⟩

theorem strBytes_toNat_lt (s : Str) (h : ∀ c ∈ s, c.toNat < 256) :
    ∀ x ∈ strBytes s, x < 256 := by
  intro x hx
  simp only [strBytes, List.mem_map] at hx
  obtain ⟨c, hc, rfl⟩ := hx
  exact h c hc

/-- C8: two tokens issued for the same user id differ textually whenever
the two calls differ in their issue time (`Date.now()` has millisecond
precision and is embedded as `iat`) or in their fresh 8-byte `jti` nonce
from `randomBytes(8)` — in particular two calls in rapid succession with
different nonces yield different strings. -/
theorem generateToken_distinct (sig : Str → Str) (userId : Nat)
    (now1 now2 : Nat) (jti1 jti2 : List Nat)
    (hl1 : jti1.length = 8) (hl2 : jti2.length = 8)
    (hb1 : ∀ b ∈ jti1, b < 256) (hb2 : ∀ b ∈ jti2, b < 256)
    (hne : now1 ≠ now2 ∨ jti1 ≠ jti2) :
    generateToken sig now1 jti1 userId ≠ generateToken sig now2 jti2 userId := by
  intro heq
  simp only [generateToken] at heq
  have h1 := List.append_cancel_left heq
  have h2 := (List.cons.inj h1).2
  have h3 := append_sep_inj _ _ _ _ (base64urlEncode_ne_dot _) (base64urlEncode_ne_dot _) h2
  have hby1 : ∀ x ∈ strBytes (payloadStr userId (now1 / 1000 + 24 * 60 * 60) now1
      (toHex jti1)), x < 256 :=
    strBytes_toNat_lt _ (payloadStr_toNat_lt _ _ _ _ (toHex_toNat_lt jti1 hb1))
  have hby2 : ∀ x ∈ strBytes (payloadStr userId (now2 / 1000 + 24 * 60 * 60) now2
      (toHex jti2)), x < 256 :=
    strBytes_toNat_lt _ (payloadStr_toNat_lt _ _ _ _ (toHex_toNat_lt jti2 hb2))
  have h4 := strBytes_inj (base64urlEncode_injOn hby1 hby2 h3.1)
  have hjlen : (toHex jti1).length = (toHex jti2).length := by
    rw [toHex_length, toHex_length, hl1, hl2]
  have h5 := payloadStr_inj hjlen h4
  rcases hne with hne | hne
  · exact hne h5.2.2.1
  · exact hne (toHex_injOn hb1 hb2 h5.2.2.2)

theorem generateToken_distinct_witness :
    generateToken (fun _ => []) 0 (List.replicate 8 0) 1 ≠
      generateToken (fun _ => []) 0 (List.replicate 7 0 ++ [1]) 1 :=
  generateToken_distinct (fun _ => []) 1 0 0 (List.replicate 8 0)
    (List.replicate 7 0 ++ [1]) (by decide) (by decide) (by decide) (by decide)
    (Or.inr (by decide))

/-- `user_role` enum from the schema. -/
inductive Role where
  | STUDENT
  | LECTURER
  | ADMIN
deriving DecidableEq, Repr

/-- `thesis_status` enum from the schema. -/
inductive ThesisStatus where
  | PROPOSAL
  | IN_PROGRESS
  | REVISION
  | COMPLETED
deriving DecidableEq, Repr

/-- A row of `users`. -/
structure UserRow where
  id : Nat
  username : Str
  email : Str
  password_hash : Str
  role : Role
  created_at : Nat
  updated_at : Nat
deriving DecidableEq, Repr

/-- A row of `students`. -/
structure StudentRow where
  id : Nat
  user_id : Nat
  student_id : Str
  full_name : Str
  phone : Option Str
  address : Option Str
  created_at : Nat
  updated_at : Nat
deriving DecidableEq, Repr

/-- A row of `lecturers`. -/
structure LecturerRow where
  id : Nat
  user_id : Nat
  lecturer_id : Str
  full_name : Str
  phone : Option Str
  specialization : Option Str
  created_at : Nat
  updated_at : Nat
deriving DecidableEq, Repr

/-- A row of `theses`. -/
structure ThesisRow where
  id : Nat
  student_id : Nat
  title : Str
  description : Option Str
  status : ThesisStatus
  created_at : Nat
  updated_at : Nat
deriving DecidableEq, Repr

/-- A row of the `thesis_lecturers` junction table. -/
structure ThesisLecturerRow where
  id : Nat
  thesis_id : Nat
  lecturer_id : Nat
  is_primary : Bool
  created_at : Nat
deriving DecidableEq, Repr

/-- A row of `guidance_sessions`. -/
structure GuidanceSessionRow where
  id : Nat
  thesis_id : Nat
  session_date : Nat
  notes : Option Str
  created_at : Nat
  updated_at : Nat
deriving DecidableEq, Repr

/-- The database: the tables the claims touch, plus the `serial` id
counter of each. -/
structure DB where
  users : List UserRow := []
  students : List StudentRow := []
  lecturers : List LecturerRow := []
  theses : List ThesisRow := []
  thesisLecturers : List ThesisLecturerRow := []
  guidanceSessions : List GuidanceSessionRow := []
  nextUserId : Nat := 1
  nextStudentId : Nat := 1
  nextLecturerId : Nat := 1
  nextThesisId : Nat := 1
  nextThesisLecturerId : Nat := 1
deriving DecidableEq, Repr

structure CreateUserInput where
  username : Str
  email : Str
  password : Str
  role : Role
deriving DecidableEq, Repr

structure LoginInput where
  username : Str
  password : Str
deriving DecidableEq, Repr

structure CreateStudentInput where
  user_id : Nat
  student_id : Str
  full_name : Str
  phone : Option Str
  address : Option Str
deriving DecidableEq, Repr

structure CreateLecturerInput where
  user_id : Nat
  lecturer_id : Str
  full_name : Str
  phone : Option Str
  specialization : Option Str
deriving DecidableEq, Repr

structure CreateThesisInput where
  student_id : Nat
  title : Str
  description : Option Str
  status : Option ThesisStatus
  lecturer_ids : List Nat
deriving DecidableEq, Repr

/-- `updateThesisInputSchema`: `title`, `description` and `status` are
optional; `description` may additionally be set to null explicitly, hence
the nested option. -/
structure UpdateThesisInput where
  id : Nat
  title : Option Str
  description : Option (Option Str)
  status : Option ThesisStatus
deriving DecidableEq, Repr

structure GetGuidanceSessionsInput where
  thesis_id : Nat
deriving DecidableEq, Repr

/-- `registerUser` from the auth handler: reject duplicate username, then
duplicate email, then hash the password and insert; the returned
representation has `password_hash` replaced by the empty string. -/
def registerUser (scrypt : Str → Str → List Nat) (salt : List Nat) (now : Nat)
    (input : CreateUserInput) (db : DB) : Except JsError UserRow × DB :=
  let existingUser := db.users.filter (fun u => u.username == input.username)
  if existingUser.length > 0 then (.error (.error "Username already exists"), db)
  else
    let existingEmail := db.users.filter (fun u => u.email == input.email)
    if existingEmail.length > 0 then (.error (.error "Email already exists"), db)
    else
      let hashedPassword := hashPassword scrypt salt input.password
      let user : UserRow :=
        { id := db.nextUserId, username := input.username,
          email := input.email, password_hash := hashedPassword, role := input.role,
          created_at := now, updated_at := now }
      (.ok { user with password_hash := [] },
        { db with
          users := db.users ++ [user], nextUserId := db.nextUserId + 1 })

/-- `loginUser` from the auth handler: look up by username, throw
`Error('Invalid credentials')` when absent; verify the password (a
`TypeError`/`RangeError` from `verifyPassword` propagates), throw the
same `Error('Invalid credentials')` when it does not match; otherwise
issue a token and return the user with `password_hash` scrubbed. -/
def loginUser (scrypt : Str → Str → List Nat) (sig : Str → Str) (now : Nat)
    (jti : List Nat) (input : LoginInput) (db : DB) :
    Except JsError (UserRow × Str) × DB :=
  match db.users.filter (fun u => u.username == input.username) with
  | [] => (.error (.error "Invalid credentials"), db)
  | user :: _ =>
    match verifyPassword scrypt input.password user.password_hash with
    | .error e => (.error e, db)
    | .ok false => (.error (.error "Invalid credentials"), db)
    | .ok true =>
      (.ok ({ user with password_hash := [] }, generateToken sig now jti user.id), db)

/-- `createStudent` from the students handler: the user must exist and
have the STUDENT role; the insert then enforces the schema's unique
constraint on the external `student_id` (there is no constraint or check
on `user_id`). -/
def createStudent (now : Nat) (input : CreateStudentInput) (db : DB) :
    Except JsError StudentRow × DB :=
  match db.users.filter (fun u => u.id == input.user_id) with
  | [] => (.error (.error "User not found"), db)
  | u :: _ =>
    if u.role = Role.STUDENT then
      if db.students.any (fun s => s.student_id == input.student_id) then
        (.error .uniqueViolation, db)
      else
        let row : StudentRow :=
          { id := db.nextStudentId, user_id := input.user_id,
            student_id := input.student_id, full_name := input.full_name,
            phone := input.phone, address := input.address,
            created_at := now, updated_at := now }
        (.ok row, { db with
          students := db.students ++ [row],
          nextStudentId := db.nextStudentId + 1 })
    else (.error (.error "User must have STUDENT role"), db)

/-- `createLecturer` from the lecturers handler, mirroring
`createStudent` with the LECTURER role and the unique external
`lecturer_id`. -/
def createLecturer (now : Nat) (input : CreateLecturerInput) (db : DB) :
    Except JsError LecturerRow × DB :=
  match db.users.filter (fun u => u.id == input.user_id) with
  | [] => (.error (.error "User not found"), db)
  | u :: _ =>
    if u.role = Role.LECTURER then
      if db.lecturers.any (fun l => l.lecturer_id == input.lecturer_id) then
        (.error .uniqueViolation, db)
      else
        let row : LecturerRow :=
          { id := db.nextLecturerId, user_id := input.user_id,
            lecturer_id := input.lecturer_id, full_name := input.full_name,
            phone := input.phone, specialization := input.specialization,
            created_at := now, updated_at := now }
        (.ok row, { db with
          lecturers := db.lecturers ++ [row],
          nextLecturerId := db.nextLecturerId + 1 })
    else (.error (.error "User must have LECTURER role"), db)

/-- The storage-level foreign-key condition for inserting
`thesis_lecturers` rows: every referenced lecturer id exists. -/
def lecturerIdsExist (db : DB) (ids : List Nat) : Bool :=
  ids.all (fun lid => db.lecturers.any (fun l => l.id == lid))

/-- `createThesis` from the theses handler: insert the thesis row (the
insert fails on a dangling `student_id` foreign key), then insert one
`thesis_lecturers` row per supplied lecturer id, `is_primary` for index
0. The two inserts are sequential awaits with no transaction: when the
second fails on a dangling lecturer id, the thesis row remains in the
returned state. -/
def createThesis (now : Nat) (input : CreateThesisInput) (db : DB) :
    Except JsError ThesisRow × DB :=
  if db.students.any (fun s => s.id == input.student_id) then
    let newThesis : ThesisRow :=
      { id := db.nextThesisId, student_id := input.student_id,
        title := input.title, description := input.description,
        status := input.status.getD ThesisStatus.PROPOSAL,
        created_at := now, updated_at := now }
    let db1 := { db with
      theses := db.theses ++ [newThesis],
      nextThesisId := db.nextThesisId + 1 }
    let entries := input.lecturer_ids.enum.map (fun p =>
      ({ id := db1.nextThesisLecturerId + p.1, thesis_id := newThesis.id,
         lecturer_id := p.2, is_primary := p.1 == 0,
         created_at := now } : ThesisLecturerRow))
    if lecturerIdsExist db1 input.lecturer_ids then
      (.ok newThesis, { db1 with
        thesisLecturers := db1.thesisLecturers ++ entries,
        nextThesisLecturerId := db1.nextThesisLecturerId + entries.length })
    else (.error .fkViolation, db1)
  else (.error .fkViolation, db)

/-- The row produced by `updateThesis` for a matched thesis: only the
fields present in the input are overwritten, and `updated_at` is set to
`new Date()`. -/
def applyThesisUpdate (now : Nat) (input : UpdateThesisInput) (t : ThesisRow) : ThesisRow :=
  { t with
    updated_at := now,
    title := input.title.getD t.title,
    description := input.description.getD t.description,
    status := input.status.getD t.status }

/-- `updateThesis` from the theses handler: update every row matching the
id (ids are unique in practice), return the first updated row, and throw
`Error('Thesis with id ... not found')` when no row matched. -/
def updateThesis (now : Nat) (input : UpdateThesisInput) (db : DB) :
    Except JsError ThesisRow × DB :=
  let newTheses := db.theses.map (fun t =>
    if t.id == input.id then applyThesisUpdate now input t else t)
  match (db.theses.filter (fun t => t.id == input.id)).map (applyThesisUpdate now input) with
  | [] => (.error (.error ("Thesis with id " ++ toString input.id ++ " not found")),
      { db with theses := newTheses })
  | r :: _ => (.ok r, { db with theses := newTheses })

/-- `getGuidanceSessionsByThesis` from the guidance-sessions handler:
select the sessions of the thesis ordered by `session_date` descending. -/
def getGuidanceSessionsByThesis (input : GetGuidanceSessionsInput) (db : DB) :
    List GuidanceSessionRow :=
  (db.guidanceSessions.filter (fun s => s.thesis_id == input.thesis_id)).mergeSort
    (fun a b => decide (b.session_date ≤ a.session_date))

instance {ε α : Type} [DecidableEq ε] [DecidableEq α] : DecidableEq (Except ε α) := fun a b =>
  match a, b with
  | .error e1, .error e2 =>
    if h : e1 = e2 then isTrue (by rw [h]) else isFalse (fun he => h (Except.error.inj he))
  | .ok a1, .ok a2 =>
    if h : a1 = a2 then isTrue (by rw [h]) else isFalse (fun he => h (Except.ok.inj he))
  | .error _, .ok _ => isFalse Except.noConfusion
  | .ok _, .error _ => isFalse Except.noConfusion

/-- Witness salt: a fixed 16-byte `randomBytes(16)` output. -/
def wSalt : List Nat := List.replicate 16 0

/-- Witness nonce: a fixed 8-byte `randomBytes(8)` output. -/
def wJti : List Nat := List.replicate 8 0

/-- Witness MAC: a fixed HMAC stand-in. -/
def wSig : Str → Str := fun _ => []

/-- C4: `loginUser` fails with the same `Error('Invalid credentials')`
value both when no user has the supplied username and when the user
exists but the password verifies to `false`, so the two failure cases are
indistinguishable to the caller. -/
theorem loginUser_uniform_unauthorized
    (scrypt : Str → Str → List Nat) (sig : Str → Str) (now : Nat) (jti : List Nat)
    (input : LoginInput) (db : DB) :
    (db.users.filter (fun u => u.username == input.username) = [] →
      (loginUser scrypt sig now jti input db).1 = .error (.error "Invalid credentials")) ∧
    (∀ (u : UserRow) (rest : List UserRow),
      db.users.filter (fun x => x.username == input.username) = u :: rest →
      verifyPassword scrypt input.password u.password_hash = .ok false →
      (loginUser scrypt sig now jti input db).1 = .error (.error "Invalid credentials")) := by
  constructor
  · intro h
    simp [loginUser, h]
  · intro u rest h hv
    simp [loginUser, h, hv]

/-- A password-sensitive concrete stand-in for `scryptSync(·, ·, 64)`,
used to witness wrong-password behaviour. -/
def cScrypt2 : Str → Str → List Nat :=
  fun pw _ => (pw.headD 'a').toNat % 256 :: List.replicate 63 0

/-- The user stored in the login witness database. -/
def wUser : UserRow :=
  { id := 1, username := ['u'], email := ['e'],
    password_hash := hashPassword cScrypt2 wSalt ['q'], role := .STUDENT,
    created_at := 0, updated_at := 0 }

/-- Witness database containing exactly `wUser`. -/
def wLoginDB : DB := { users := [wUser] }

theorem loginUser_uniform_unauthorized_witness :
    (loginUser cScrypt2 wSig 0 wJti { username := ['a'], password := ['p'] } {}).1 =
      .error (.error "Invalid credentials") ∧
    (loginUser cScrypt2 wSig 0 wJti { username := ['u'], password := ['p'] } wLoginDB).1 =
      .error (.error "Invalid credentials") :=
  ⟨(loginUser_uniform_unauthorized cScrypt2 wSig 0 wJti
      { username := ['a'], password := ['p'] } {}).1 (by decide),
   (loginUser_uniform_unauthorized cScrypt2 wSig 0 wJti
      { username := ['u'], password := ['p'] } wLoginDB).2 wUser [] (by decide) (by decide)⟩

/-- C5: every user representation returned by a successful `registerUser`
or `loginUser` call has its `password_hash` field scrubbed to the empty
string before leaving the repository boundary. -/
theorem auth_scrubs_password_hash :
    (∀ (scrypt : Str → Str → List Nat) (salt : List Nat) (now : Nat)
      (input : CreateUserInput) (db : DB) (u : UserRow) (db' : DB),
      registerUser scrypt salt now input db = (.ok u, db') → u.password_hash = []) ∧
    (∀ (scrypt : Str → Str → List Nat) (sig : Str → Str) (now : Nat) (jti : List Nat)
      (input : LoginInput) (db : DB) (u : UserRow) (tok : Str) (db' : DB),
      loginUser scrypt sig now jti input db = (.ok (u, tok), db') → u.password_hash = []) := by
  constructor
  · intro scrypt salt now input db u db' h
    by_cases h1 : (List.filter (fun x => x.username == input.username) db.users).length > 0
    · simp [registerUser, h1] at h
    · by_cases h2 : (List.filter (fun x => x.email == input.email) db.users).length > 0
      · simp [registerUser, h1, h2] at h
      · simp only [registerUser, if_neg h1, if_neg h2, Prod.mk.injEq, Except.ok.injEq] at h
        rw [← h.1]
  · intro scrypt sig now jti input db u tok db' h
    unfold loginUser at h
    split at h
    · simp at h
    · split at h
      · simp at h
      · simp at h
      · simp only [Prod.mk.injEq, Except.ok.injEq] at h
        rw [← h.1.1]

/-- The scrubbed row returned by the register witness call. -/
def wRegRow : UserRow :=
  { id := 1, username := ['u'], email := ['e'], password_hash := [],
    role := .STUDENT, created_at := 5, updated_at := 5 }

/-- The database state after the register witness call. -/
def wRegDB : DB :=
  { users := [{ wRegRow with password_hash := hashPassword cScrypt wSalt ['p'] }],
    nextUserId := 2 }

/-- Witness database for a successful login. -/
def wOkUser : UserRow :=
  { id := 1, username := ['u'], email := ['e'],
    password_hash := hashPassword cScrypt wSalt ['p'], role := .STUDENT,
    created_at := 0, updated_at := 0 }

def wOkDB : DB := { users := [wOkUser] }

theorem auth_scrubs_password_hash_witness :
    wRegRow.password_hash = [] ∧
    ({ wOkUser with password_hash := [] } : UserRow).password_hash = [] :=
  ⟨auth_scrubs_password_hash.1 cScrypt wSalt 5
      { username := ['u'], email := ['e'], password := ['p'], role := .STUDENT } {}
      wRegRow wRegDB (by decide),
   auth_scrubs_password_hash.2 cScrypt wSig 0 wJti
      { username := ['u'], password := ['p'] } wOkDB
      { wOkUser with password_hash := [] } (generateToken wSig 0 wJti 1) wOkDB (by decide)⟩

/-- C6: creating a thesis with `lecturer_ids = [L1, L2]` (both lecturers
existing, the student existing) succeeds and appends exactly one
`thesis_lecturers` row per supplied id, the row for `L1` with
`is_primary = true` and the row for `L2` with `is_primary = false`. -/
theorem createThesis_two_lecturers (now : Nat) (db : DB) (sid : Nat) (title : Str)
    (desc : Option Str) (st : Option ThesisStatus) (L1 L2 : Nat)
    (hs : db.students.any (fun s => s.id == sid) = true)
    (hl1 : db.lecturers.any (fun l => l.id == L1) = true)
    (hl2 : db.lecturers.any (fun l => l.id == L2) = true) :
    (createThesis now { student_id := sid, title := title, description := desc,
                        status := st, lecturer_ids := [L1, L2] } db).1 =
      .ok { id := db.nextThesisId, student_id := sid, title := title,
            description := desc, status := st.getD ThesisStatus.PROPOSAL,
            created_at := now, updated_at := now } ∧
    (createThesis now { student_id := sid, title := title, description := desc,
                        status := st, lecturer_ids := [L1, L2] } db).2.thesisLecturers =
      db.thesisLecturers ++
        [{ id := db.nextThesisLecturerId, thesis_id := db.nextThesisId,
           lecturer_id := L1, is_primary := true, created_at := now },
         { id := db.nextThesisLecturerId + 1, thesis_id := db.nextThesisId,
           lecturer_id := L2, is_primary := false, created_at := now }] := by
  unfold createThesis lecturerIdsExist
  simp [hs, hl1, hl2, List.enum]

/-- Witness student, lecturers and database for thesis creation. -/
def wStu : StudentRow :=
  { id := 1, user_id := 1, student_id := ['s'], full_name := ['n'],
    phone := none, address := none, created_at := 0, updated_at := 0 }

def wLec1 : LecturerRow :=
  { id := 1, user_id := 2, lecturer_id := ['a'], full_name := ['n'],
    phone := none, specialization := none, created_at := 0, updated_at := 0 }

def wLec2 : LecturerRow :=
  { id := 2, user_id := 3, lecturer_id := ['b'], full_name := ['n'],
    phone := none, specialization := none, created_at := 0, updated_at := 0 }

def wThesisDB : DB := { students := [wStu], lecturers := [wLec1, wLec2] }

theorem createThesis_two_lecturers_witness :
    (createThesis 0 { student_id := 1, title := ['t'], description := none,
                      status := none, lecturer_ids := [1, 2] } wThesisDB).1 =
      .ok { id := wThesisDB.nextThesisId, student_id := 1, title := ['t'],
            description := none, status := Option.none.getD ThesisStatus.PROPOSAL,
            created_at := 0, updated_at := 0 } ∧
    (createThesis 0 { student_id := 1, title := ['t'], description := none,
                      status := none, lecturer_ids := [1, 2] } wThesisDB).2.thesisLecturers =
      wThesisDB.thesisLecturers ++
        [{ id := wThesisDB.nextThesisLecturerId, thesis_id := wThesisDB.nextThesisId,
           lecturer_id := 1, is_primary := true, created_at := 0 },
         { id := wThesisDB.nextThesisLecturerId + 1, thesis_id := wThesisDB.nextThesisId,
           lecturer_id := 2, is_primary := false, created_at := 0 }] :=
  createThesis_two_lecturers 0 wThesisDB 1 ['t'] none none 1 2
    (by decide) (by decide) (by decide)

/-- Database for the C3 counterexample: one student, no lecturers. -/
def dbC3 : DB := { students := [wStu] }

/-- A thesis creation referencing lecturer id 1, which does not exist in
`dbC3`. -/
def inC3 : CreateThesisInput :=
  { student_id := 1, title := ['t'], description := none, status := none,
    lecturer_ids := [1] }

/-- C3 counterexample: with an existing student and a dangling lecturer
id, `createThesis` fails on the `thesis_lecturers` insert but the state
afterwards still contains the new thesis row — the two inserts are not
atomic and the state is changed on error. -/
theorem createThesis_not_atomic_cex :
    (createThesis 0 inC3 dbC3).1 = .error .fkViolation ∧
    (createThesis 0 inC3 dbC3).2.theses ≠ dbC3.theses := by decide

/-- C3 (amended): `createThesis` runs its two inserts sequentially with
no transaction: whenever the student exists but some supplied lecturer id
does not, the call throws the foreign-key failure of the second insert
and the state afterwards contains the freshly inserted thesis row — the
thesis remains visible after the error. -/
theorem createThesis_error_keeps_thesis (now : Nat) (input : CreateThesisInput) (db : DB)
    (hs : db.students.any (fun s => s.id == input.student_id) = true)
    (hl : input.lecturer_ids.all
      (fun lid => db.lecturers.any (fun l => l.id == lid)) = false) :
    (createThesis now input db).1 = .error .fkViolation ∧
    (createThesis now input db).2.theses = db.theses ++
      [{ id := db.nextThesisId, student_id := input.student_id, title := input.title,
         description := input.description,
         status := input.status.getD ThesisStatus.PROPOSAL,
         created_at := now, updated_at := now }] := by
  unfold createThesis lecturerIdsExist
  simp [hs, hl]

theorem createThesis_error_keeps_thesis_witness :
    (createThesis 0 inC3 dbC3).1 = .error .fkViolation ∧
    (createThesis 0 inC3 dbC3).2.theses = dbC3.theses ++
      [{ id := dbC3.nextThesisId, student_id := inC3.student_id, title := inC3.title,
         description := inC3.description,
         status := inC3.status.getD ThesisStatus.PROPOSAL,
         created_at := 0, updated_at := 0 }] :=
  createThesis_error_keeps_thesis 0 inC3 dbC3 (by decide) (by decide)

/-- Inputs and reachable states for the duplicate-profile scenario: one
registered STUDENT user, then two `createStudent` calls for the same
`user_id` with different external student ids. -/
def inStuA : CreateStudentInput :=
  { user_id := 1, student_id := ['A'], full_name := ['n'],
    phone := none, address := none }

def inStuB : CreateStudentInput :=
  { user_id := 1, student_id := ['B'], full_name := ['n'],
    phone := none, address := none }

def dbC7a : DB :=
  (registerUser cScrypt wSalt 0
    { username := ['u'], email := ['e'], password := ['p'], role := .STUDENT } {}).2

def dbC7b : DB := (createStudent 0 inStuA dbC7a).2

def dbC7c : DB := (createStudent 0 inStuB dbC7b).2

/-- C7 counterexample: starting from an empty database, registering a
STUDENT user and calling `createStudent` twice with `user_id = 1` (and
different external student ids) both succeed, reaching a state in which
two rows of the students table share the same `user_id` — the
at-most-one-profile-per-user invariant does not hold and `createStudent`
does not preserve it. -/
theorem createStudent_duplicate_profile_cex :
    (createStudent 0 inStuB dbC7b).1 =
      .ok { id := 2, user_id := 1, student_id := ['B'], full_name := ['n'],
            phone := none, address := none, created_at := 0, updated_at := 0 } ∧
    (dbC7c.students.filter (fun s => s.user_id == 1)).length = 2 := by decide

/-- C7 (amended): `createStudent` checks only that the referenced user
exists with the STUDENT role and that the external `student_id` is
unused (the schema's unique constraint); nothing constrains `user_id`,
so the call succeeds even when the user already owns a Student profile
and each such call adds one more row with that `user_id` (createLecturer
behaves the same way for Lecturer profiles). -/
theorem createStudent_no_user_uniqueness (now : Nat) (input : CreateStudentInput)
    (db : DB) (u : UserRow) (rest : List UserRow)
    (hu : db.users.filter (fun x => x.id == input.user_id) = u :: rest)
    (hrole : u.role = Role.STUDENT)
    (hsid : db.students.any (fun s => s.student_id == input.student_id) = false) :
    (createStudent now input db).1 = .ok
      { id := db.nextStudentId, user_id := input.user_id,
        student_id := input.student_id, full_name := input.full_name,
        phone := input.phone, address := input.address,
        created_at := now, updated_at := now } ∧
    ((createStudent now input db).2.students.filter
        (fun s => s.user_id == input.user_id)).length =
      (db.students.filter (fun s => s.user_id == input.user_id)).length + 1 := by
  unfold createStudent
  rw [hu]
  simp [hrole, hsid, List.filter_append]

/-- The user row present in `dbC7a`. -/
def wRegUserC7 : UserRow :=
  { id := 1, username := ['u'], email := ['e'],
    password_hash := hashPassword cScrypt wSalt ['p'], role := .STUDENT,
    created_at := 0, updated_at := 0 }

theorem createStudent_no_user_uniqueness_witness :
    (createStudent 0 inStuB dbC7b).1 = .ok
      { id := dbC7b.nextStudentId, user_id := inStuB.user_id,
        student_id := inStuB.student_id, full_name := inStuB.full_name,
        phone := inStuB.phone, address := inStuB.address,
        created_at := 0, updated_at := 0 } ∧
    ((createStudent 0 inStuB dbC7b).2.students.filter
        (fun s => s.user_id == inStuB.user_id)).length =
      (dbC7b.students.filter (fun s => s.user_id == inStuB.user_id)).length + 1 :=
  createStudent_no_user_uniqueness 0 inStuB dbC7b wRegUserC7 []
    (by decide) (by decide) (by decide)

/-- C9: `updateThesis` throws `Error('Thesis with id ... not found')`
when no thesis matches the id; otherwise it returns the matched row with
exactly the supplied fields overwritten: omitted fields keep their prior
values, supplied fields take the supplied values, `id`, `student_id` and
`created_at` are unchanged, and `updated_at` is set to the present
time. -/
theorem updateThesis_partial_update (now : Nat) (input : UpdateThesisInput) (db : DB) :
    (db.theses.filter (fun t => t.id == input.id) = [] →
      (updateThesis now input db).1 =
        .error (.error ("Thesis with id " ++ toString input.id ++ " not found"))) ∧
    (∀ (t : ThesisRow) (rest : List ThesisRow),
      db.theses.filter (fun x => x.id == input.id) = t :: rest →
      (updateThesis now input db).1 = .ok (applyThesisUpdate now input t) ∧
      (applyThesisUpdate now input t).id = t.id ∧
      (applyThesisUpdate now input t).student_id = t.student_id ∧
      (applyThesisUpdate now input t).created_at = t.created_at ∧
      (applyThesisUpdate now input t).updated_at = now ∧
      (input.title = none → (applyThesisUpdate now input t).title = t.title) ∧
      (input.description = none →
        (applyThesisUpdate now input t).description = t.description) ∧
      (input.status = none → (applyThesisUpdate now input t).status = t.status) ∧
      (∀ v, input.title = some v → (applyThesisUpdate now input t).title = v) ∧
      (∀ v, input.description = some v →
        (applyThesisUpdate now input t).description = v) ∧
      (∀ v, input.status = some v → (applyThesisUpdate now input t).status = v)) := by
  constructor
  · intro h
    simp [updateThesis, h]
  · intro t rest h
    refine ⟨by simp [updateThesis, h], rfl, rfl, rfl, rfl, ?_, ?_, ?_, ?_, ?_, ?_⟩
    · intro h0; simp [applyThesisUpdate, h0]
    · intro h0; simp [applyThesisUpdate, h0]
    · intro h0; simp [applyThesisUpdate, h0]
    · intro v hv; simp [applyThesisUpdate, hv]
    · intro v hv; simp [applyThesisUpdate, hv]
    · intro v hv; simp [applyThesisUpdate, hv]

/-- Witness thesis and database for partial update. -/
def tC9 : ThesisRow :=
  { id := 1, student_id := 1, title := ['t'], description := none,
    status := .PROPOSAL, created_at := 0, updated_at := 0 }

def dbC9 : DB := { theses := [tC9] }

def inC9 : UpdateThesisInput :=
  { id := 1, title := some ['T'], description := none, status := none }

def inC9b : UpdateThesisInput :=
  { id := 2, title := none, description := none, status := none }

theorem updateThesis_partial_update_witness :
    (updateThesis 0 inC9b dbC9).1 =
      .error (.error ("Thesis with id " ++ toString inC9b.id ++ " not found")) ∧
    (updateThesis 5 inC9 dbC9).1 = .ok (applyThesisUpdate 5 inC9 tC9) :=
  ⟨(updateThesis_partial_update 0 inC9b dbC9).1 (by decide),
   ((updateThesis_partial_update 5 inC9 dbC9).2 tC9 [] (by decide)).1⟩

/-- C10: `getGuidanceSessionsByThesis` returns exactly the stored
sessions of the requested thesis (a permutation of the filtered table)
sorted by `session_date` in descending order, newest first. -/
theorem getGuidanceSessionsByThesis_sorted (input : GetGuidanceSessionsInput) (db : DB) :
    List.Perm (getGuidanceSessionsByThesis input db)
      (db.guidanceSessions.filter (fun s => s.thesis_id == input.thesis_id)) ∧
    List.Pairwise (fun a b => b.session_date ≤ a.session_date)
      (getGuidanceSessionsByThesis input db) ∧
    ∀ s ∈ getGuidanceSessionsByThesis input db, s.thesis_id = input.thesis_id := by
  unfold getGuidanceSessionsByThesis
  refine ⟨List.mergeSort_perm _ _, ?_, ?_⟩
  · refine List.Pairwise.imp ?_ (List.sorted_mergeSort ?_ ?_ _)
    · intro a b hab
      simpa using hab
    · intro a b c hab hbc
      simp only [decide_eq_true_eq] at *
      omega
    · intro a b
      rcases Nat.le_total b.session_date a.session_date with h | h <;> simp [h]
  · intro s hs
    have hmem : s ∈ db.guidanceSessions.filter (fun x => x.thesis_id == input.thesis_id) :=
      List.mem_mergeSort.mp hs
    simpa using (List.mem_filter.mp hmem).2

end Skripsi
